import Mathlib

/-!
Verification development for the emerge language front end
(`src/emerge/languages/gdparser.py` and `src/emerge/languages/godot_tscnparser.py`).

The Python parsers scan whitespace-split token streams for anchor keywords,
materialize a read-ahead window (anchor plus remaining suffix joined with
single spaces) and run small pyparsing grammars on that window.  This file
gives a character-level executable embedding of the pyparsing combinators the
two parsers use (`Keyword`, `Literal`, `Word`, `QuotedString`, `Optional`,
`NotAny`, `SkipTo`), an embedding of the scan loops themselves, and theorems
about them.  Collaborator pieces that live outside the two source files
(tokenizer, read-ahead join, scope splitter, `relative_analysis_path`) are
modelled from the specification and marked as such in their doc comments.
-/

deriving instance DecidableEq for Except

namespace Emerge

/-- pyparsing default whitespace characters (space, tab, newline). -/
def isWs (c : Char) : Bool := c == ' ' || c == '\t' || c == '\n'

/-- Python `str.strip()`: drop leading and trailing whitespace. -/
def pyStrip (s : String) : String :=
  String.mk (((s.data.dropWhile isWs).reverse.dropWhile isWs).reverse)

/-- pyparsing skips leading whitespace before each terminal match. -/
def skipWs : List Char → List Char
  | [] => []
  | c :: cs => if isWs c then skipWs cs else c :: cs

/-- Match an exact character sequence (the body of pyparsing `Literal`). -/
def matchChars : List Char → List Char → Option (List Char)
  | [], s => some s
  | l :: ls, c :: cs => if c == l then matchChars ls cs else none
  | _ :: _, [] => none

/-- pyparsing `Literal`: skip whitespace, then match the literal text exactly. -/
def litP (lit : String) (s : List Char) : Option (List Char) :=
  matchChars lit.data (skipWs s)

/-- Default identifier characters of pyparsing `Keyword`
(alphanumerics, underscore, dollar). -/
def isIdentChar (c : Char) : Bool := c.isAlphanum || c == '_' || c == '$'

/-- pyparsing `Keyword`: a literal match that must end at a word boundary.
The windows below always place keywords after whitespace or at the window
start, so the leading-boundary check of pyparsing is vacuous here. -/
def keywordP (kw : String) (s : List Char) : Option (List Char) :=
  match matchChars kw.data (skipWs s) with
  | none => none
  | some [] => some []
  | some (c :: rest) => if isIdentChar c then none else some (c :: rest)

/-- pyparsing `Word(initChars, bodyChars)`: skip whitespace, require one
initial character satisfying `initP`, then take the maximal run of `bodyP`
characters. -/
def wordP (initP bodyP : Char → Bool) (s : List Char) :
    Option (String × List Char) :=
  match skipWs s with
  | [] => none
  | c :: cs =>
    if initP c then some (String.mk (c :: cs.takeWhile bodyP), cs.dropWhile bodyP)
    else none

/-- `pp.alphanums` (ASCII letters and digits). -/
def isAlphanumChar (c : Char) : Bool := c.isAlpha || c.isDigit

/-- Characters of the load-path word: `pp.alphanums + "-" + "_" + "/" + "."`. -/
def isLoadPathChar (c : Char) : Bool :=
  isAlphanumChar c || c == '-' || c == '_' || c == '/' || c == '.'

/-- Initial characters of `type_identifier`: `pp.alphas + "_"`. -/
def isTypeInitChar (c : Char) : Bool := c.isAlpha || c == '_'

/-- Body characters of `type_identifier`: `pp.alphanums + "_"`. -/
def isTypeBodyChar (c : Char) : Bool := isAlphanumChar c || c == '_'

/-- Body characters of `enum_value`: `pp.alphanums.upper() + "_"`. -/
def isEnumBodyChar (c : Char) : Bool := c.isUpper || c.isDigit || c == '_'

/-- Body of a pyparsing `QuotedString('"')` up to the closing quote; fails on
a newline or end of input (default `multiline=False`, no escape characters). -/
def quotedBody : List Char → Option (List Char × List Char)
  | [] => none
  | c :: cs =>
    if c == '"' then some ([], cs)
    else if c == '\n' then none
    else match quotedBody cs with
      | none => none
      | some (body, rest) => some (c :: body, rest)

/-- pyparsing `QuotedString('"')` with `unquoteResults=True`. -/
def quotedStringP (s : List Char) : Option (String × List Char) :=
  match skipWs s with
  | [] => none
  | c :: cs =>
    if c == '"' then (quotedBody cs).map (fun p => (String.mk p.1, p.2))
    else none

/-- pyparsing `SkipTo(FollowedBy(":"))` at the tail of a grammar: it succeeds
exactly when a `":"` occurs somewhere in the remaining input (the skipped text
capture is never used by the source). -/
def skipToColonOk (s : List Char) : Bool := s.contains ':'

/-- Modelled from the spec: the tail of `create_read_ahead_string` of the
missing `ParsingMixin` — every following token is preceded by a single space
(spec section 4.1: tokens joined with single spaces). -/
def joinRestC : List String → List Char
  | [] => []
  | t :: ts => ' ' :: (t.data ++ joinRestC ts)

/-- Modelled from the spec: `create_read_ahead_string(obj, following)` of the
missing `ParsingMixin` joins the anchor token and the whole remaining suffix
into one re-parseable string with single spaces between tokens
(spec section 4.1). -/
def raChars (obj : String) (following : List String) : List Char :=
  obj.data ++ joinRestC following

/-- Grammar `class_name_expr` of `_add_class_name_to_result`:
`Keyword("class_name") + Word(alphanums)("class_name")`. -/
def classNameParse (s : List Char) : Option String :=
  match keywordP "class_name" s with
  | none => none
  | some r => (wordP isAlphanumChar isAlphanumChar r).map (·.1)

/-- Grammar `extends_expr` of `_add_class_name_to_result`:
`Keyword("extends") + Word(alphanums)("extends_name")`. -/
def extendsParse (s : List Char) : Option String :=
  match keywordP "extends" s with
  | none => none
  | some r => (wordP isAlphanumChar isAlphanumChar r).map (·.1)

/-- Named captures of the load/preload reference grammar. -/
structure LoadCapture where
  hasRes : Bool
  load_path : String
  deriving DecidableEq

/-- Grammar `preload_or_load` of `_parse_loads`:
`Or([Keyword("load"), Keyword("preload")]) + Suppress("(") + Literal("\"")
+ NotAny("user : //") + Optional(Literal("res : //"))("res")
+ Word(alphanums + "-" + "_" + "/" + ".")("load_path") + Literal("\"")
+ Suppress(")")`.  The two keyword alternatives are mutually exclusive, so
first-match equals pyparsing's longest-match `Or`. -/
def loadGrammarParse (s : List Char) : Option LoadCapture :=
  let kw := match keywordP "load" s with
    | some r => some r
    | none => keywordP "preload" s
  match kw with
  | none => none
  | some r1 =>
    match litP "(" r1 with
    | none => none
    | some r2 =>
      match litP "\"" r2 with
      | none => none
      | some r3 =>
        if (litP "user : //" r3).isSome then none
        else
          let step := match litP "res : //" r3 with
            | some r => (true, r)
            | none => (false, r3)
          match wordP isLoadPathChar isLoadPathChar step.2 with
          | none => none
          | some (p, r5) =>
            match litP "\"" r5 with
            | none => none
            | some r6 =>
              if (litP ")" r6).isSome then some ⟨step.1, p⟩ else none

/-- Named captures of the class-header grammar of
`_add_inheritance_to_entity_result`. -/
structure ClassHeaderCapture where
  entity_name : String
  inherited : Option String
  deriving DecidableEq

/-- Grammar `expression_to_match` of `_add_inheritance_to_entity_result`:
`Keyword("class") + Word(alphanums)("entity_name")
+ Optional(Keyword("extends") + Word(alphanums)("inherited_entity_name"))
+ SkipTo(FollowedBy(":"))`.  A partial match inside the `Optional` backtracks
to before the `extends` keyword, as pyparsing's `Optional` does. -/
def classHeaderParse (s : List Char) : Option ClassHeaderCapture :=
  match keywordP "class" s with
  | none => none
  | some r1 =>
    match wordP isAlphanumChar isAlphanumChar r1 with
    | none => none
    | some (nm, r2) =>
      let step :=
        match keywordP "extends" r2 with
        | some ra =>
          match wordP isAlphanumChar isAlphanumChar ra with
          | some (inm, rb) => (some inm, rb)
          | none => (none, r2)
        | none => (none, r2)
      if skipToColonOk step.2 then some ⟨nm, step.1⟩ else none

/-- `enum_value = Word(".", alphanums.upper() + "_") + pp.StringEnd()` of
`_detect_type_usages`, used as a negative lookahead. -/
def enumValueAt (s : List Char) : Bool :=
  match wordP (· == '.') isEnumBodyChar s with
  | some (_, rest) => skipWs rest == []
  | none => false

/-- The `ZeroOrMore(~enum_value + Word(".") + type_identifier)` loop of the
`type_chain` grammar.  `fuel` bounds the iteration count; every iteration
consumes at least two characters, so the initial input length always
suffices and the bound is never reached. -/
def typeChainLoop : Nat → List String → List Char → List String
  | 0, acc, _ => acc
  | Nat.succ fuel, acc, s =>
    if enumValueAt s then acc
    else match wordP (· == '.') (· == '.') s with
      | none => acc
      | some (dots, r1) =>
        match wordP isTypeInitChar isTypeBodyChar r1 with
        | none => acc
        | some (idn, r2) => typeChainLoop fuel (acc ++ [dots, idn]) r2

/-- Grammar `type_chain` of `_detect_type_usages`:
`(type_identifier + ZeroOrMore(~enum_value + Word(".") + type_identifier))("type")`;
returns the captured token list. -/
def typeChainParse (s : List Char) : Option (List String) :=
  match wordP isTypeInitChar isTypeBodyChar s with
  | none => none
  | some (idn, r) => some (typeChainLoop s.length [idn] r)

/-- Python exceptions that can cross the modelled boundaries. -/
inductive PyErr where
  /-- e.g. `parseString(None)`: `None` has no `expandtabs` attribute. -/
  | attributeError
  /-- e.g. `Path.relative_to` applied to a non-subpath. -/
  | valueError
  /-- e.g. `following[0]` on an empty suffix. -/
  | indexError
  deriving DecidableEq

/-- `pathlib.Path`: an absolute-path flag plus the path segments. -/
structure PyPath where
  absolute : Bool
  segs : List String
  deriving DecidableEq

/-- Split a character list at slashes (the component split of
`pathlib.Path`). -/
def splitSlashes (acc : List Char) : List Char → List String
  | [] => [String.mk acc.reverse]
  | c :: cs =>
    if c == '/' then String.mk acc.reverse :: splitSlashes [] cs
    else splitSlashes (c :: acc) cs

/-- `pathlib.Path(s)` built from a literal string: absolute iff there is a
leading slash; empty and single-dot components are dropped, as pathlib does. -/
def parsePath (s : String) : PyPath :=
  let abs := match s.data with
    | '/' :: _ => true
    | _ => false
  ⟨abs, (splitSlashes [] s.data).filter (fun t => t != "" && t != ".")⟩

/-- `Path.__truediv__`: joining with an absolute right-hand side discards the
left-hand side. -/
def pjoin (a b : PyPath) : PyPath :=
  if b.absolute then b else ⟨a.absolute, a.segs ++ b.segs⟩

/-- `Path.parent`. -/
def pparent (p : PyPath) : PyPath := ⟨p.absolute, p.segs.dropLast⟩

/-- Boolean segment-wise front-matching test, used to model
`Path.relative_to`. -/
def segsLe : List String → List String → Bool
  | [], _ => true
  | _ :: _, [] => false
  | x :: xs, y :: ys => x == y && segsLe xs ys

/-- `Path.relative_to(base)`: defined when `base` is an initial segment run of
the path; otherwise pathlib raises `ValueError`. -/
def relTo (p base : PyPath) : Option PyPath :=
  if p.absolute == base.absolute && segsLe base.segs p.segs then
    some ⟨false, p.segs.drop base.segs.length⟩
  else none

/-- `str(Path)`: slash-joined segments, a leading slash when absolute, and
`"."` for the empty relative path. -/
def pstr (p : PyPath) : String :=
  if p.absolute then "/" ++ String.intercalate "/" p.segs
  else if p.segs.isEmpty then "." else String.intercalate "/" p.segs

/-- The punctuation characters padded by `self._token_mappings` of both
parsers (the two mappings are identical); 123 and 125 are the curly brace
code points. -/
def mappedChars : List Char :=
  [':', ';', Char.ofNat 123, Char.ofNat 125, '(', ')', '[', ']',
   '?', '!', ',', '<', '>', '"']

/-- Modelled from the spec: the padding step of the missing
`preprocess_file_content_and_generate_token_list_by_mapping` surrounds every
mapped punctuation character with blanks and keeps newlines as explicit
tokens (spec sections 3 and 6). -/
def padChar (c : Char) : List Char :=
  if mappedChars.contains c || c == '\n' then [' ', c, ' '] else [c]

/-- Modelled from the spec: the splitting step of the missing token
preprocessor — split on blanks and tabs, dropping empty pieces; the padded
newline characters survive as their own tokens (spec section 3). -/
def splitTok (acc : List Char) : List Char → List String
  | [] => if acc.isEmpty then [] else [String.mk acc.reverse]
  | c :: cs =>
    if c == ' ' || c == '\t' then
      if acc.isEmpty then splitTok [] cs
      else String.mk acc.reverse :: splitTok [] cs
    else splitTok (c :: acc) cs

/-- Modelled from the spec: the missing token preprocessor — pad mapped
punctuation and newlines, then split on blanks (spec sections 3 and 6). -/
def tokenize (content : String) : List String :=
  splitTok [] (content.data.flatMap padChar)

/-- The hit/miss counters of the external `Statistics` sink, together with
the warnings the extractor logs (each warning records the anchor token and
the truncated `following[:10]` context of `LOGGER.warning`). -/
structure Stats where
  parsing_hits : Nat
  parsing_misses : Nat
  warnings : List (String × List String)
  deriving DecidableEq

/-- The fields of `FileResult` that the two parsers read or write.  The
`relative_analysis_path` field is modelled from the spec (the class lives in
the missing `emerge/results.py`): the current file's directory re-expressed
relative to the parent of the project source root (spec section 4.5). -/
structure FileRes where
  scanned_file_name : String
  module_name : String
  scanned_tokens : List String
  scanned_import_dependencies : List String
  relative_analysis_path : PyPath
  source_directory : PyPath
  unique_name : String
  deriving DecidableEq

/-- The fields of `EntityResult` that the GD parser reads or writes. -/
structure EntityRes where
  entity_name : String
  module_name : String
  unique_name : String
  scanned_tokens : List String
  scanned_import_dependencies : List String
  scanned_inheritance_dependencies : List String
  deriving DecidableEq

/-- One entry of the shared result table `self._results`. -/
inductive Res where
  | file (f : FileRes)
  | entity (e : EntityRes)
  deriving DecidableEq

/-- Python dict insertion: overwrite in place when the key exists, append
otherwise.  The shared result table `self._results` is modelled as the
insertion-ordered list of its key/value pairs. -/
def upsert (k : String) (v : Res) : List (String × Res) → List (String × Res)
  | [] => [(k, v)]
  | (k₀, v₀) :: rest =>
    if k₀ == k then (k, v) :: rest else (k₀, v₀) :: upsert k v rest

/-- State of the file-level identity scan of `_add_class_name_to_result`:
the local `class_name` and `extends` variables, the file's `module_name`,
the file's import-dependency list, and the number of loop iterations run
before breaking or exhausting the stream. -/
structure IdScanState where
  class_name : String
  extendsName : String
  module_name : String
  file_deps : List String
  consumed : Nat
  deriving DecidableEq

/-- The scan loop of `_add_class_name_to_result` (gdparser.py lines 114-141):
at a `class_name` anchor run `class_name_expr` on the read-ahead window
(success sets the local variable and the file's `module_name`, and breaks
when `extends` was already found); at an `extends` anchor run `extends_expr`
(success appends the captured name to the file's import dependencies and
breaks when `class_name` was already found); break at any of the body-start
keywords `enum`, `func`, `var`, `const`, `class`; grammar failures are
absorbed and the scan continues. -/
def idScan (cn ex md : String) (fdeps : List String) (n : Nat) :
    List String → IdScanState
  | [] => ⟨cn, ex, md, fdeps, n⟩
  | t :: rest =>
    if t == "class_name" then
      match classNameParse (raChars t rest) with
      | some nm =>
        if ex != "" then ⟨nm, ex, nm, fdeps, n + 1⟩
        else idScan nm ex nm fdeps (n + 1) rest
      | none => idScan cn ex md fdeps (n + 1) rest
    else if t == "extends" then
      match extendsParse (raChars t rest) with
      | some nm =>
        if cn != "" then ⟨cn, nm, md, fdeps ++ [nm], n + 1⟩
        else idScan cn nm md (fdeps ++ [nm]) (n + 1) rest
      | none => idScan cn ex md fdeps (n + 1) rest
    else if t == "enum" || t == "func" || t == "var" || t == "const" ||
        t == "class" then
      ⟨cn, ex, md, fdeps, n + 1⟩
    else idScan cn ex md fdeps (n + 1) rest

/-- The path-resolution branch shared by `_parse_loads` (gdparser.py lines
172-177) and `_extract_objects` (godot_tscnparser.py lines 166-170): with
the `res : //` marker, join the captured path onto the analysis source
directory and re-express it relative to that directory's parent
(`Path.relative_to` raises `ValueError` on a non-subpath); without the
marker, join it onto the file's `relative_analysis_path`. -/
def resolve_load (srcdir relDir : PyPath) (hasRes : Bool) (lp : String) :
    Except PyErr String :=
  if hasRes then
    match relTo (pjoin srcdir (parsePath lp)) (pparent srcdir) with
    | some r => .ok (pstr r)
    | none => .error .valueError
  else .ok (pstr (pjoin relDir (parsePath lp)))

/-- The scan loop of `_parse_loads` (gdparser.py lines 162-181): at every
`load`/`preload` anchor, run the reference grammar on the read-ahead
window; on a match, resolve the captured path and append it; a grammar
failure is absorbed and the scan continues at the next token. -/
def parse_loads_scan (srcdir relDir : PyPath) (deps : List String) :
    List String → Except PyErr (List String)
  | [] => .ok deps
  | t :: rest =>
    if t == "load" || t == "preload" then
      match loadGrammarParse (raChars t rest) with
      | some cap =>
        match resolve_load srcdir relDir cap.hasRes cap.load_path with
        | .ok p => parse_loads_scan srcdir relDir (deps ++ [p]) rest
        | .error e => .error e
      | none => parse_loads_scan srcdir relDir deps rest
    else parse_loads_scan srcdir relDir deps rest

/-- `_parse_loads` applied to a file result. -/
def parse_loads (result : FileRes) : Except PyErr (List String) :=
  parse_loads_scan result.source_directory result.relative_analysis_path []
    result.scanned_tokens

/-- `_add_class_name_to_result` (gdparser.py lines 108-160): run the identity
scan; exactly when both a class name and an extends name were found, build
the file-level pseudo entity — unique name equal to the bare class name, the
bare `extends` capture as its sole inheritance dependency, and the
`_parse_loads` results as its import dependencies. -/
def add_class_name_to_result (result : FileRes) :
    Except PyErr (FileRes × Option EntityRes) :=
  let st := idScan "" "" result.module_name result.scanned_import_dependencies
    0 result.scanned_tokens
  let result' := { result with
    module_name := st.module_name
    scanned_import_dependencies := st.file_deps }
  if st.class_name != "" && st.extendsName != "" then
    match parse_loads result' with
    | .error e => .error e
    | .ok loads =>
      .ok (result', some {
        entity_name := st.class_name
        module_name := st.module_name
        unique_name := st.class_name
        scanned_tokens := result'.scanned_tokens
        scanned_import_dependencies := loads
        scanned_inheritance_dependencies := [st.extendsName] })
  else .ok (result', none)

/-- The freshly created file record of `FileResult.create_file_result` as
`GDParser.generate_file_result_from_analysis` builds it (gdparser.py lines
91-103): tokenized content and an empty module name.  The file's unique
name is modelled from the spec: files are keyed by their path relative to
the parent of the project source root (spec section 4.5). -/
def gd_file0 (file_name : String) (srcdir relDir : PyPath)
    (content : String) : FileRes := {
  scanned_file_name := file_name
  module_name := ""
  scanned_tokens := tokenize content
  scanned_import_dependencies := []
  relative_analysis_path := relDir
  source_directory := srcdir
  unique_name := pstr (pjoin relDir (parsePath file_name)) }

/-- `generate_file_result_from_analysis` of `GDParser` (gdparser.py lines
82-106): build the file record, run `_add_class_name_to_result` (whose
pseudo entity, when it exists, is published first), then publish the file
record. -/
def gd_generate_file_result (tbl : List (String × Res)) (file_name : String)
    (srcdir relDir : PyPath) (content : String) :
    Except PyErr (List (String × Res)) :=
  match add_class_name_to_result (gd_file0 file_name srcdir relDir content) with
  | .error e => .error e
  | .ok (file', entOpt) =>
    let tbl1 := match entOpt with
      | some e => upsert e.unique_name (.entity e) tbl
      | none => tbl
    .ok (upsert file'.unique_name (.file file') tbl1)

/-- `_add_inheritance_to_entity_result` (gdparser.py lines 281-311): at every
`class` anchor run the combined class-header grammar on the read-ahead
window.  A `ParseException` is absorbed at the anchor: the parse-miss
counter increments by exactly one, a warning with the anchor token and the
truncated `following[:10]` context is logged, and the scan continues with
the next token.  A match that carries an inheritance capture increments the
hit counter and appends the raw parent name. -/
def add_inheritance_scan (stats : Stats) (inh : List String) :
    List String → List String × Stats
  | [] => (inh, stats)
  | t :: rest =>
    if t == "class" then
      match classHeaderParse (raChars t rest) with
      | none =>
        add_inheritance_scan
          { stats with
            parsing_misses := stats.parsing_misses + 1
            warnings := stats.warnings ++ [(t, rest.take 10)] }
          inh rest
      | some cap =>
        match cap.inherited with
        | some nm =>
          add_inheritance_scan
            { stats with parsing_hits := stats.parsing_hits + 1 }
            (inh ++ [nm]) rest
        | none => add_inheritance_scan stats inh rest
    else add_inheritance_scan stats inh rest

/-- `_add_inheritance_to_entity_result` applied to an entity result. -/
def add_inheritance_to_entity_result (e : EntityRes) (stats : Stats) :
    EntityRes × Stats :=
  let out := add_inheritance_scan stats e.scanned_inheritance_dependencies
    e.scanned_tokens
  ({ e with scanned_inheritance_dependencies := out.1 }, out.2)

/-- `create_unique_entity_name` (gdparser.py lines 275-279). -/
def create_unique_entity_name (e : EntityRes) : EntityRes :=
  if e.module_name != "" then
    { e with unique_name := e.module_name ++ "." ++ e.entity_name }
  else { e with unique_name := e.entity_name }

/-- One append attempt of `_detect_type_usages` (gdparser.py lines 205-209
and 223-228): add the detected type name when it is a key of the known
entity table, differs from the current entity's name, and is not already
present in the dependency list. -/
def maybeAddDep (names : List String) (selfName : String)
    (deps : List String) (tn : String) : List String :=
  if names.contains tn && tn != selfName && !(deps.contains tn) then
    deps ++ [tn]
  else deps

/-- The token loop of `_detect_type_usages` (gdparser.py lines 195-232).  The
`":"`/`"->"` branch guards its look-ahead token against `None` and newline;
the `"="` branch does not: at end of stream it calls `parseString(None)`,
which raises `AttributeError` — an exception the surrounding
`except pp.ParseException` does not catch.  The function returns the
dependency list reached together with the escaping exception, if any. -/
def detect_loop (names : List String) (selfName : String)
    (deps : List String) : List String → List String × Option PyErr
  | [] => (deps, none)
  | t :: rest =>
    if t == ":" || t == "->" then
      match rest with
      | [] => (deps, none)
      | nt :: rest' =>
        if nt != "" && nt != "\n" then
          match typeChainParse nt.data with
          | some caps =>
            detect_loop names selfName
              (maybeAddDep names selfName deps (String.join caps)) rest'
          | none => detect_loop names selfName deps rest'
        else detect_loop names selfName deps rest'
    else if t == "=" then
      match rest with
      | [] => (deps, some .attributeError)
      | nt :: rest' =>
        match typeChainParse nt.data with
        | none => detect_loop names selfName deps rest'
        | some caps =>
          match rest' with
          | [] => (maybeAddDep names selfName deps (String.join caps), none)
          | nt2 :: rest'' =>
            let tn := if nt2 == "(" then String.join (caps.dropLast.dropLast)
              else String.join caps
            detect_loop names selfName (maybeAddDep names selfName deps tn)
              rest''
    else detect_loop names selfName deps rest

/-- `_detect_type_usages` (gdparser.py lines 189-232): mutates the entity's
import-dependency list in place; the second component reports an exception
escaping the function, in which case the list already holds all appends made
before the raise. -/
def detect_type_usages (e : EntityRes) (names : List String) :
    EntityRes × Option PyErr :=
  let out := detect_loop names e.entity_name e.scanned_import_dependencies
    e.scanned_tokens
  ({ e with scanned_import_dependencies := out.1 }, out.2)

/-- Modelled from the spec: the combined class-header grammar
`match_expression` handed to the missing scope splitter
`generate_entity_results_from_scopes` — at a `class` anchor it captures the
entity name that follows the keyword (spec section 4.2). -/
def matchExpressionParse (s : List Char) : Option String :=
  match keywordP "class" s with
  | none => none
  | some r => (wordP isAlphanumChar isAlphanumChar r).map (·.1)

/-- Modelled from the spec: the missing scope splitter
`generate_entity_results_from_scopes` yields one entity per syntactically
detected entity body, anchored at the entity keyword `class`, with the
anchor's remaining window as the entity's token sub-stream (spec section 6);
a stream without a matching `class` anchor yields no entities. -/
def scope_split_scan (md : String) : List String → List EntityRes
  | [] => []
  | t :: rest =>
    (if t == "class" then
      match matchExpressionParse (raChars t rest) with
      | some nm => [{
          entity_name := nm
          module_name := md
          unique_name := nm
          scanned_tokens := t :: rest
          scanned_import_dependencies := []
          scanned_inheritance_dependencies := [] }]
      | none => []
    else []) ++ scope_split_scan md rest

/-- Modelled from the spec: scope splitting applied to a file result. -/
def scope_split_entities (file : FileRes) : List EntityRes :=
  scope_split_scan file.module_name file.scanned_tokens

/-- Lookup against the dict comprehension
`{entity.entity_name: entity for entity in entity_results}` (gdparser.py
line 261): the last entity with a given local name wins. -/
def lookupLast (nm : String) : List EntityRes → Option EntityRes
  | [] => none
  | e :: rest =>
    match lookupLast nm rest with
    | some r => some r
    | none => if e.entity_name == nm then some e else none

/-- The inheritance-rewriting loop of `generate_entity_results_from_analysis`
(gdparser.py lines 262-265): a raw parent name equal to the local name of an
entity of the same file is replaced by that entity's unique name; any other
raw name is left as is. -/
def rewrite_inh (ents : List EntityRes) (e : EntityRes) : EntityRes :=
  { e with scanned_inheritance_dependencies :=
      e.scanned_inheritance_dependencies.map (fun d =>
        match lookupLast d ents with
        | some e' => e'.unique_name
        | none => d) }

/-- The first per-file loop of `generate_entity_results_from_analysis`
(gdparser.py lines 258-260): extract inheritance and assign the unique name
for each scope-splitter entity in order, threading the statistics. -/
def entity_naming_pass (stats : Stats) :
    List EntityRes → List EntityRes × Stats
  | [] => ([], stats)
  | e :: rest =>
    let r := add_inheritance_to_entity_result e stats
    let out := entity_naming_pass r.2 rest
    (create_unique_entity_name r.1 :: out.1, out.2)

/-- The per-file body of `generate_entity_results_from_analysis` (gdparser.py
lines 239-266): for each scope-splitter entity, extract inheritance and
assign the unique name; then rewrite raw parent names against the same
file's entities. -/
def process_file_entities (stats : Stats) (ents : List EntityRes) :
    List EntityRes × Stats :=
  let step := entity_naming_pass stats ents
  (step.1.map (rewrite_inh step.1), step.2)

/-- The file results of the table, in table order (the filter of gdparser.py
line 236). -/
def tableFiles (tbl : List (String × Res)) : List FileRes :=
  tbl.filterMap (fun p => match p.2 with
    | .file f => some f
    | .entity _ => none)

/-- The keys of the table's entity results, in table order (the dict
comprehension of gdparser.py line 267). -/
def tableEntityKeys (tbl : List (String × Res)) : List String :=
  tbl.filterMap (fun p => match p.2 with
    | .entity _ => some p.1
    | .file _ => none)

/-- The final loop of `generate_entity_results_from_analysis` (gdparser.py
lines 269-273): run `_detect_type_usages` over every entity of the table in
table order; an exception escaping it aborts the pass. -/
def detect_pass (keys : List String) :
    List (String × Res) → Except PyErr (List (String × Res))
  | [] => .ok []
  | (k, Res.file f) :: rest =>
    (detect_pass keys rest).map (fun r => (k, Res.file f) :: r)
  | (k, Res.entity e) :: rest =>
    let r := detect_type_usages e keys
    match r.2 with
    | some err => .error err
    | none =>
      match detect_pass keys rest with
      | .error err => .error err
      | .ok rest' => .ok ((k, Res.entity r.1) :: rest')

/-- `generate_entity_results_from_analysis` (gdparser.py lines 234-273):
per-file entity extraction, naming and linking over the snapshot of file
results, then the type-usage pass over every entity of the table. -/
def gd_generate_entity_results (tbl : List (String × Res)) (stats : Stats) :
    Except PyErr (List (String × Res) × Stats) :=
  let step := (tableFiles tbl).foldl
    (fun (acc : List (String × Res) × Stats) f =>
      let pr := process_file_entities acc.2 (scope_split_entities f)
      (pr.1.foldl (fun t e => upsert e.unique_name (.entity e) t) acc.1,
        pr.2))
    (tbl, stats)
  match detect_pass (tableEntityKeys step.1) step.1 with
  | .error e => .error e
  | .ok t => .ok (t, step.2)

/-- One input file of an analysis run: name, directory relative to the
parent of the project source root, raw content. -/
structure GDInputFile where
  file_name : String
  relDir : PyPath
  content : String

/-- One analysis run of the GD parser: phase 1 generates a file result per
input file in order, phase 2 generates, links and post-processes entity
results (the two-phase structure of spec section 5). -/
def gd_run (srcdir : PyPath) (files : List GDInputFile) :
    Except PyErr (List (String × Res) × Stats) :=
  match files.foldlM (fun tbl f =>
      gd_generate_file_result tbl f.file_name srcdir f.relDir f.content) [] with
  | .error e => .error e
  | .ok tbl => gd_generate_entity_results tbl ⟨0, 0, []⟩

/-- The fields of `TSCNObject` the scene parser uses.  The Python `type`
field holds either the default empty string or the
`TSCNParsingKeyword.EXT_RESOURCE` enum member; `typeIsExtResource` records
which of the two. -/
structure TSCNObject where
  typeIsExtResource : Bool
  path : String
  id : String
  resource_type : String
  deriving DecidableEq

/-- Named captures of the `[ext_resource ...]` grammar. -/
structure ExtResourceCapture where
  resource_type : String
  hasRes : Bool
  path : String
  id : String
  deriving DecidableEq

/-- Grammar of the `ext_resource` case of `_extract_objects`
(godot_tscnparser.py lines 140-163): `Suppress("[") + Keyword("ext_resource")
+ Keyword("type") + Suppress("=") + QuotedString("\"")("type")
+ Optional("uid" + Suppress("=") + QuotedString("\"")) + Keyword("path")
+ Suppress("=") + Literal("\"") + Optional(Literal("res : //"))("res")
+ Word(alphanums + "-" + "_" + "/" + ".")("path") + Literal("\"")
+ Keyword("id") + Suppress("=") + QuotedString("\"")("id") + Suppress("]")`.
Every named capture is `strip()`-ped afterwards (line 165); a partial match
of the optional `uid` group backtracks wholly, as pyparsing's `Optional`
does. -/
def extResourceParse (s : List Char) : Option ExtResourceCapture :=
  match litP "[" s with
  | none => none
  | some r1 =>
  match keywordP "ext_resource" r1 with
  | none => none
  | some r2 =>
  match keywordP "type" r2 with
  | none => none
  | some r3 =>
  match litP "=" r3 with
  | none => none
  | some r4 =>
  match quotedStringP r4 with
  | none => none
  | some (ty, r5) =>
  let r6 := match litP "uid" r5 with
    | some ra =>
      match litP "=" ra with
      | some rb =>
        match quotedStringP rb with
        | some (_, rc) => rc
        | none => r5
      | none => r5
    | none => r5
  match keywordP "path" r6 with
  | none => none
  | some r7 =>
  match litP "=" r7 with
  | none => none
  | some r8 =>
  match litP "\"" r8 with
  | none => none
  | some r9 =>
  let step := match litP "res : //" r9 with
    | some r => (true, r)
    | none => (false, r9)
  match wordP isLoadPathChar isLoadPathChar step.2 with
  | none => none
  | some (p, r10) =>
  match litP "\"" r10 with
  | none => none
  | some r11 =>
  match keywordP "id" r11 with
  | none => none
  | some r12 =>
  match litP "=" r12 with
  | none => none
  | some r13 =>
  match quotedStringP r13 with
  | none => none
  | some (idv, r14) =>
    if (litP "]" r14).isSome then some ⟨pyStrip ty, step.1, pyStrip p, pyStrip idv⟩
    else none

/-- `_extract_objects` (godot_tscnparser.py lines 116-175): at every `[`
anchor, branch on the first following token (`following[0]` raises
`IndexError` when the suffix is empty); a `node` header is skipped; an
`ext_resource` header is parsed with the grammar above, its path resolved
(root-relative against the source directory when the `res : //` marker was
captured, otherwise against the file's analysis path) and collected; a
grammar failure is absorbed and the scan continues. -/
def extract_objects_scan (srcdir relDir : PyPath) (acc : List TSCNObject) :
    List String → Except PyErr (List TSCNObject)
  | [] => .ok acc
  | t :: rest =>
    if t == "[" then
      match rest with
      | [] => .error .indexError
      | f0 :: _ =>
        if f0 == "node" then extract_objects_scan srcdir relDir acc rest
        else if f0 == "ext_resource" then
          match extResourceParse (raChars t rest) with
          | none => extract_objects_scan srcdir relDir acc rest
          | some cap =>
            match resolve_load srcdir relDir cap.hasRes cap.path with
            | .error e => .error e
            | .ok p =>
              extract_objects_scan srcdir relDir
                (acc ++ [⟨true, p, cap.id, cap.resource_type⟩]) rest
        else extract_objects_scan srcdir relDir acc rest
    else extract_objects_scan srcdir relDir acc rest

/-- `_add_dependencies_to_result` (godot_tscnparser.py lines 180-183): append
the path of every collected object whose `type` is the `EXT_RESOURCE` enum
member and whose resource type is `Script` or `PackedScene`; nothing else is
appended. -/
def add_dependencies_to_result (deps : List String)
    (objs : List TSCNObject) : List String :=
  objs.foldl (fun d o =>
    if o.typeIsExtResource &&
        (o.resource_type == "Script" || o.resource_type == "PackedScene") then
      d ++ [o.path]
    else d) deps

/-- `Path(p).stem`: the final path component without its last extension
(a lone leading dot is not an extension separator). -/
def stemOf (s : String) : String :=
  let base := (s.splitOn "/").getLastD s
  let pieces := base.splitOn "."
  if pieces.length ≤ 1 || (pieces.getD 0 "" == "" && pieces.length == 2) then
    base
  else String.intercalate "." pieces.dropLast

/-- `generate_file_result_from_analysis` of `GodotTSCNParser`
(godot_tscnparser.py lines 91-114): tokenize, build the file record (the
module name is the file's stem), extract the scene objects and attach the
filtered dependencies. -/
def tscn_generate_file_result (file_name : String) (srcdir relDir : PyPath)
    (content : String) : Except PyErr FileRes :=
  let file0 : FileRes := {
    scanned_file_name := file_name
    module_name := stemOf file_name
    scanned_tokens := tokenize content
    scanned_import_dependencies := []
    relative_analysis_path := relDir
    source_directory := srcdir
    unique_name := pstr (pjoin relDir (parsePath file_name)) }
  match extract_objects_scan srcdir relDir [] file0.scanned_tokens with
  | .error e => .error e
  | .ok objs =>
    .ok { file0 with scanned_import_dependencies :=
      add_dependencies_to_result file0.scanned_import_dependencies objs }

/-- All `(token, suffix)` pairs the cursor `_gen_word_read_ahead` yields over
a token stream, in order. -/
def anchorWindows : List String → List (String × List String)
  | [] => []
  | t :: rest => (t, rest) :: anchorWindows rest

/-- Does a cursor position carry a `class` anchor whose read-ahead window
fails the combined class-header grammar? -/
def classAnchorFails (p : String × List String) : Bool :=
  p.1 == "class" && (classHeaderParse (raChars p.1 p.2)).isNone

/-- The raw parent names the inheritance extractor captures over a token
stream: one per `class` anchor whose window matches the class-header grammar
with an inheritance capture, in scan order. -/
def classAnchorHits (ts : List String) : List String :=
  (anchorWindows ts).filterMap (fun p =>
    if p.1 == "class" then (classHeaderParse (raChars p.1 p.2)).bind
      (fun cap => cap.inherited)
    else none)

/-- The traversal skeleton of `_detect_type_usages`: the candidate type
names the scan computes, in encounter order, and the exception the scan
ends with.  Neither depends on the entity's dependency list — the list only
filters which candidates are appended. -/
def detect_trace : List String → List String × Option PyErr
  | [] => ([], none)
  | t :: rest =>
    if t == ":" || t == "->" then
      match rest with
      | [] => ([], none)
      | nt :: rest' =>
        if nt != "" && nt != "\n" then
          match typeChainParse nt.data with
          | some caps =>
            let r := detect_trace rest'
            (String.join caps :: r.1, r.2)
          | none => detect_trace rest'
        else detect_trace rest'
    else if t == "=" then
      match rest with
      | [] => ([], some .attributeError)
      | nt :: rest' =>
        match typeChainParse nt.data with
        | none => detect_trace rest'
        | some caps =>
          match rest' with
          | [] => ([String.join caps], none)
          | nt2 :: rest'' =>
            let tn := if nt2 == "(" then String.join (caps.dropLast.dropLast)
              else String.join caps
            let r := detect_trace rest''
            (tn :: r.1, r.2)
    else detect_trace rest

/-- The identity-scan stopping rule as the specification words it: walking
the stream with two seen-flags, the scan stops at the first token whose
processing leaves both the `class_name` and the `extends` capture
successfully parsed, or at the first body-start keyword (`enum`, `func`,
`var`, `const`, `class`) — whichever comes first — and otherwise exhausts
the stream; the result counts the tokens processed. -/
def identity_scan_stop_spec (cnSeen exSeen : Bool) (n : Nat) :
    List String → Nat
  | [] => n
  | t :: rest =>
    let cn' := cnSeen ||
      (t == "class_name" && (classNameParse (raChars t rest)).isSome)
    let ex' := exSeen ||
      (t == "extends" && (extendsParse (raChars t rest)).isSome)
    if cn' && ex' then n + 1
    else if t == "enum" || t == "func" || t == "var" || t == "const" ||
        t == "class" then n + 1
    else identity_scan_stop_spec cn' ex' (n + 1) rest

/-- Key lookup in the result table (Python `dict` access by key). -/
def lookupTable (k : String) : List (String × Res) → Option Res
  | [] => none
  | p :: rest => if p.1 == k then some p.2 else lookupTable k rest

/-- Project source root `P` used by the concrete scenarios. -/
def demoRoot : PyPath := ⟨true, ["home", "proj"]⟩

/-- Directory of a file at the top of the project, re-expressed relative to
the parent of the source root. -/
def demoTopDir : PyPath := ⟨false, ["proj"]⟩

/-- The two-file scenario: `a.gd` declares `class_name Foo` and
`extends Bar`; `b.gd` declares only `class_name Bar`. -/
def c1Files : List GDInputFile :=
  [⟨"a.gd", demoTopDir, "class_name Foo\nextends Bar\n"⟩,
   ⟨"b.gd", demoTopDir, "class_name Bar\n"⟩]

/-- The scene-file scenario: one `Script` external resource, one `Texture2D`
external resource, one node header. -/
def c7Content : String :=
  "[gd_scene load_steps=3 format=3]\n" ++
  "[ext_resource type=\"Script\" path=\"res://player.gd\" id=\"1\"]\n" ++
  "[ext_resource type=\"Texture2D\" path=\"res://icon.png\" id=\"2\"]\n" ++
  "[node name=\"Root\" type=\"Node2D\"]\n"

/-- A small file record whose stream declares both identity facts and no
loads, used to exercise the file-level extractor at a concrete input. -/
def c9File : FileRes := {
  scanned_file_name := "w.gd"
  module_name := ""
  scanned_tokens := ["class_name", "Foo", "\n", "extends", "Bar"]
  scanned_import_dependencies := []
  relative_analysis_path := demoTopDir
  source_directory := demoRoot
  unique_name := "proj/w.gd" }

/-- The file record `c9File` after its identity scan: module name set and
the raw `extends` capture appended. -/
def c9FileOut : FileRes :=
  { c9File with module_name := "Foo", scanned_import_dependencies := ["Bar"] }

/-- The pseudo entity the file-level extractor builds for `c9File`. -/
def c9Entity : EntityRes :=
  ⟨"Foo", "Foo", "Foo", ["class_name", "Foo", "\n", "extends", "Bar"], [],
    ["Bar"]⟩

/-- A scope-splitter entity before naming, used at concrete inputs. -/
def c2E : EntityRes := ⟨"Inner", "Mod", "Inner", [], [], []⟩

/-- `c2E` after the naming pass and the rewrite pass. -/
def c2EOut : EntityRes := ⟨"Inner", "Mod", "Mod.Inner", [], [], []⟩

/-- C1, counterexample.  Running the engine on the claimed two-file scenario
(`a.gd` with `class_name Foo` and `extends Bar`; `b.gd` with
`class_name Bar`) produces exactly one entity record — `Foo`, keyed by the
bare name `Foo` — and its inheritance dependency list is the bare string
`"Bar"`.  No entity record for `Bar` exists (`b.gd` lacks `extends`), so no
fully-qualified unique name of `Bar` is ever substituted: raw parent names
are not resolved against entities discovered in other files. -/
theorem C1_counterexample :
    (gd_run demoRoot c1Files).toOption.map (fun r =>
      r.1.filterMap (fun p => match p.2 with
        | .entity e => some (p.1, e.entity_name,
            e.scanned_inheritance_dependencies)
        | .file _ => none)) =
    some [("Foo", "Foo", ["Bar"])] := by decide

/-- C1, amended: on the two-file scenario the engine produces an Entity
Record for `Foo` whose inheritance dependency list contains the bare raw
string `"Bar"`; `b.gd`, which declares only `class_name Bar`, produces no
entity record, and raw parent names of file-level pseudo entities are never
rewritten against entities from other files of the run. -/
theorem C1_amended_bare_parent :
    (gd_run demoRoot c1Files).toOption.map (fun r =>
      (lookupTable "Foo" r.1,
       r.1.countP (fun p => match p.2 with
         | .entity _ => true
         | .file _ => false))) =
    some (some (.entity ⟨"Foo", "Foo", "Foo",
      ["class_name", "Foo", "\n", "extends", "Bar", "\n"], [], ["Bar"]⟩),
      1) := by decide

/-- C3: on an entity whose token stream ends with `"="`, the `"="` branch of
`_detect_type_usages` calls `parseString(None)` (the look-ahead `next`
returned `None`), which raises `AttributeError`; the surrounding
`except pp.ParseException` does not catch it, so the exception escapes the
function's boundary — contradicting the claimed absorb-everything policy.
The dependency list keeps whatever was appended before the raise (here
nothing). -/
theorem C3_escape_at_trailing_assign :
    detect_type_usages ⟨"E", "", "E", ["x", "="], [], []⟩ [] =
      (⟨"E", "", "E", ["x", "="], [], []⟩, some .attributeError) := by decide

/-- C6, counterexample.  With source root `/home/proj`, the root-relative
literal `res://sub/thing.gd` resolves to `proj/sub/thing.gd`, while the
file-relative literal `sub/thing.gd` resolved from a file at
`P/sub/other.gd` (analysis directory `proj/sub`) resolves to
`proj/sub/sub/thing.gd` — a different canonical string. -/
theorem C6_counterexample :
    resolve_load demoRoot ⟨false, ["proj", "sub"]⟩ true "sub/thing.gd" =
        .ok "proj/sub/thing.gd" ∧
    resolve_load demoRoot ⟨false, ["proj", "sub"]⟩ false "sub/thing.gd" =
        .ok "proj/sub/sub/thing.gd" := by decide

theorem segsLe_refl_append (l m : List String) : segsLe l (l ++ m) = true := by
  induction l with
  | nil => rfl
  | cons a t ih => simp [segsLe, ih]

/-- C6, amended: the root-relative literal `res://sub/thing.gd` resolved
against any source root `P` yields the same canonical string as the
file-relative literal `thing.gd` resolved from a file located at
`P/sub/other.gd`; the file-relative literal `sub/thing.gd` claimed by the
round-trip instead duplicates the `sub` segment (see the counterexample). -/
theorem C6_amended_agreement (root : List String) (x : String) :
    resolve_load ⟨true, root ++ [x]⟩ ⟨false, [x, "sub"]⟩ true "sub/thing.gd" =
    resolve_load ⟨true, root ++ [x]⟩ ⟨false, [x, "sub"]⟩ false "thing.gd" := by
  have hp1 : parsePath "sub/thing.gd" = ⟨false, ["sub", "thing.gd"]⟩ := by
    decide
  have hp2 : parsePath "thing.gd" = ⟨false, ["thing.gd"]⟩ := by decide
  have hdrop : (root ++ [x] ++ ["sub", "thing.gd"]).drop root.length =
      [x, "sub", "thing.gd"] := by
    rw [List.append_assoc, List.drop_left]
    rfl
  simp [resolve_load, hp1, hp2, pjoin, pparent, relTo,
    List.dropLast_concat, segsLe_refl_append, List.append_assoc, hdrop]

/-- C10: a `load`/`preload` occurrence whose quoted path literal begins
with the `user://` root marker records no dependency: the reference
grammar's `NotAny("user : //")` rejects the read-ahead window whatever
follows the marker, and the `_parse_loads` scan simply continues with the
remaining tokens. -/
theorem C10_user_scheme_rejected (srcdir relDir : PyPath)
    (deps : List String) (p : String) (rest : List String) :
    loadGrammarParse (raChars "load"
        ("(" :: "\"" :: "user" :: ":" :: ("//" ++ p) :: rest)) = none ∧
    loadGrammarParse (raChars "preload"
        ("(" :: "\"" :: "user" :: ":" :: ("//" ++ p) :: rest)) = none ∧
    parse_loads_scan srcdir relDir deps
        ("load" :: "(" :: "\"" :: "user" :: ":" :: ("//" ++ p) :: rest) =
      parse_loads_scan srcdir relDir deps
        ("(" :: "\"" :: "user" :: ":" :: ("//" ++ p) :: rest) ∧
    parse_loads_scan srcdir relDir deps
        ("preload" :: "(" :: "\"" :: "user" :: ":" :: ("//" ++ p) :: rest) =
      parse_loads_scan srcdir relDir deps
        ("(" :: "\"" :: "user" :: ":" :: ("//" ++ p) :: rest) :=
  ⟨rfl, rfl, rfl, rfl⟩

theorem add_inheritance_scan_misses (ts : List String) :
    ∀ stats inh, (add_inheritance_scan stats inh ts).2.parsing_misses =
      stats.parsing_misses + (anchorWindows ts).countP classAnchorFails := by
  induction ts with
  | nil => intro stats inh; simp [add_inheritance_scan, anchorWindows]
  | cons t rest ih =>
    intro stats inh
    by_cases hc : (t == "class") = true
    · cases hp : classHeaderParse (raChars t rest) with
      | none =>
        simp [add_inheritance_scan, hc, hp, anchorWindows, List.countP_cons,
          classAnchorFails, ih]
        omega
      | some cap =>
        cases hcap : cap.inherited with
        | some nm =>
          simp [add_inheritance_scan, hc, hp, hcap, anchorWindows,
            List.countP_cons, classAnchorFails, ih]
        | none =>
          simp [add_inheritance_scan, hc, hp, hcap, anchorWindows,
            List.countP_cons, classAnchorFails, ih]
    · simp [add_inheritance_scan, hc, anchorWindows, List.countP_cons,
        classAnchorFails, ih]

theorem add_inheritance_scan_warnings (ts : List String) :
    ∀ stats inh, (add_inheritance_scan stats inh ts).2.warnings =
      stats.warnings ++ (anchorWindows ts).filterMap (fun p =>
        if classAnchorFails p then some (p.1, p.2.take 10) else none) := by
  induction ts with
  | nil => intro stats inh; simp [add_inheritance_scan, anchorWindows]
  | cons t rest ih =>
    intro stats inh
    by_cases hc : (t == "class") = true
    · have ht := eq_of_beq hc
      subst ht
      cases hp : classHeaderParse (raChars "class" rest) with
      | none =>
        simp [add_inheritance_scan, hp, anchorWindows,
          List.filterMap_cons, classAnchorFails, ih]
      | some cap =>
        cases hcap : cap.inherited with
        | some nm =>
          simp [add_inheritance_scan, hp, hcap, anchorWindows,
            List.filterMap_cons, classAnchorFails, ih]
        | none =>
          simp [add_inheritance_scan, hp, hcap, anchorWindows,
            List.filterMap_cons, classAnchorFails, ih]
    · have ht : ¬ t = "class" := by simpa using hc
      simp [add_inheritance_scan, hc, ht, anchorWindows,
        List.filterMap_cons, classAnchorFails, ih]

theorem add_inheritance_scan_deps (ts : List String) :
    ∀ stats inh, (add_inheritance_scan stats inh ts).1 =
      inh ++ classAnchorHits ts := by
  induction ts with
  | nil => intro stats inh; simp [add_inheritance_scan, classAnchorHits,
      anchorWindows]
  | cons t rest ih =>
    intro stats inh
    by_cases hc : (t == "class") = true
    · have ht := eq_of_beq hc
      subst ht
      cases hp : classHeaderParse (raChars "class" rest) with
      | none =>
        simp [add_inheritance_scan, hp, classAnchorHits, anchorWindows,
          List.filterMap_cons, ih]
      | some cap =>
        cases hcap : cap.inherited with
        | some nm =>
          simp [add_inheritance_scan, hp, hcap, classAnchorHits,
            anchorWindows, List.filterMap_cons, ih]
        | none =>
          simp [add_inheritance_scan, hp, hcap, classAnchorHits,
            anchorWindows, List.filterMap_cons, ih]
    · have ht : ¬ t = "class" := by simpa using hc
      simp [add_inheritance_scan, hc, ht, classAnchorHits, anchorWindows,
        List.filterMap_cons, ih]

/-- C4: inheritance extraction is a total scan that absorbs every grammar
failure: over any entity token stream, the parse-miss counter grows by
exactly the number of `class` anchors whose window fails the combined
class-header grammar (one per failing anchor), one warning carrying the
anchor and its truncated ten-token context is logged per failing anchor,
and the scan reaches every later anchor — the appended raw parent names are
exactly the inheritance captures of all matching anchors, in order. -/
theorem C4_miss_per_failing_anchor (ts : List String) (stats : Stats)
    (inh : List String) :
    (add_inheritance_scan stats inh ts).2.parsing_misses =
        stats.parsing_misses + (anchorWindows ts).countP classAnchorFails ∧
    (add_inheritance_scan stats inh ts).2.warnings =
        stats.warnings ++ (anchorWindows ts).filterMap (fun p =>
          if classAnchorFails p then some (p.1, p.2.take 10) else none) ∧
    (add_inheritance_scan stats inh ts).1 = inh ++ classAnchorHits ts :=
  ⟨add_inheritance_scan_misses ts stats inh,
   add_inheritance_scan_warnings ts stats inh,
   add_inheritance_scan_deps ts stats inh⟩

theorem wordP_ne_empty {i b : Char → Bool} {s : List Char} {w : String}
    {r : List Char} (h : wordP i b s = some (w, r)) : w ≠ "" := by
  intro hw
  subst hw
  unfold wordP at h
  cases hs : skipWs s with
  | nil => rw [hs] at h; simp at h
  | cons c cs =>
    rw [hs] at h
    by_cases hi : i c = true
    · simp [hi, String.ext_iff] at h
    · simp [hi] at h

theorem classNameParse_ne_empty {s : List Char} {nm : String}
    (h : classNameParse s = some nm) : nm ≠ "" := by
  unfold classNameParse at h
  cases hk : keywordP "class_name" s with
  | none => rw [hk] at h; simp at h
  | some r =>
    rw [hk] at h
    cases hw : wordP isAlphanumChar isAlphanumChar r with
    | none => simp [hw] at h
    | some pr =>
      obtain ⟨w, rr⟩ := pr
      simp [hw] at h
      subst h
      exact wordP_ne_empty hw

theorem extendsParse_ne_empty {s : List Char} {nm : String}
    (h : extendsParse s = some nm) : nm ≠ "" := by
  unfold extendsParse at h
  cases hk : keywordP "extends" s with
  | none => rw [hk] at h; simp at h
  | some r =>
    rw [hk] at h
    cases hw : wordP isAlphanumChar isAlphanumChar r with
    | none => simp [hw] at h
    | some pr =>
      obtain ⟨w, rr⟩ := pr
      simp [hw] at h
      subst h
      exact wordP_ne_empty hw

theorem idScan_consumed_spec (ts : List String) :
    ∀ cn ex md fd n, (cn != "" && ex != "") = false →
      (idScan cn ex md fd n ts).consumed =
        identity_scan_stop_spec (cn != "") (ex != "") n ts := by
  induction ts with
  | nil => intro cn ex md fd n hno; rfl
  | cons t rest ih =>
    intro cn ex md fd n hno
    by_cases h1 : (t == "class_name") = true
    · have ht := eq_of_beq h1
      subst ht
      cases hp : classNameParse (raChars "class_name" rest) with
      | some nm =>
        have hnm : (nm != "") = true := by
          simpa using classNameParse_ne_empty hp
        by_cases hex : (ex != "") = true
        · simp [idScan, identity_scan_stop_spec, hp, hex, hnm]
        · have hexf : (ex != "") = false := by simpa using hex
          have hih := ih nm ex nm fd (n + 1) (by simp [hexf])
          simp [idScan, identity_scan_stop_spec, hp, hexf, hnm, hih]
      | none =>
        have hih := ih cn ex md fd (n + 1) hno
        simp [idScan, identity_scan_stop_spec, hp, hno, hih]
    · by_cases h2 : (t == "extends") = true
      · have ht := eq_of_beq h2
        subst ht
        cases hp : extendsParse (raChars "extends" rest) with
        | some nm =>
          have hnm : (nm != "") = true := by
            simpa using extendsParse_ne_empty hp
          by_cases hcn : (cn != "") = true
          · simp [idScan, identity_scan_stop_spec, hp, hcn, hnm]
          · have hcnf : (cn != "") = false := by simpa using hcn
            have hih := ih cn nm md (fd ++ [nm]) (n + 1) (by simp [hcnf])
            simp [idScan, identity_scan_stop_spec, hp, hcnf, hnm, hih]
        | none =>
          have hih := ih cn ex md fd (n + 1) hno
          simp [idScan, identity_scan_stop_spec, hp, hno, hih]
      · by_cases h3 : (t == "enum" || t == "func" || t == "var" ||
            t == "const" || t == "class") = true
        · simp [idScan, identity_scan_stop_spec, h1, h2, h3, hno]
        · have hih := ih cn ex md fd (n + 1) hno
          simp [idScan, identity_scan_stop_spec, h1, h2, h3, hno, hih]

/-- C8: over every token stream, the file-level identity scan of
`_add_class_name_to_result` consumes exactly as many tokens as the claimed
stopping rule prescribes — it stops at the first token whose processing has
successfully parsed both a `class_name` and an `extends` identifier once,
or at the first body-start keyword `enum`/`func`/`var`/`const`/`class`,
whichever comes first, and otherwise exhausts the stream. -/
theorem C8_identity_scan_stop (ts : List String) :
    (idScan "" "" "" [] 0 ts).consumed =
      identity_scan_stop_spec false false 0 ts := by
  simpa using idScan_consumed_spec ts "" "" "" [] 0 (by simp)

theorem add_inheritance_fields (e : EntityRes) (st : Stats) :
    (add_inheritance_to_entity_result e st).1.entity_name = e.entity_name ∧
    (add_inheritance_to_entity_result e st).1.module_name = e.module_name := by
  simp [add_inheritance_to_entity_result]

theorem create_unique_fields (e : EntityRes) :
    (create_unique_entity_name e).entity_name = e.entity_name ∧
    (create_unique_entity_name e).module_name = e.module_name ∧
    (create_unique_entity_name e).unique_name =
      (if e.module_name != "" then e.module_name ++ "." ++ e.entity_name
       else e.entity_name) := by
  unfold create_unique_entity_name
  split <;> simp_all

theorem rewrite_inh_fields (ents : List EntityRes) (e : EntityRes) :
    (rewrite_inh ents e).entity_name = e.entity_name ∧
    (rewrite_inh ents e).module_name = e.module_name ∧
    (rewrite_inh ents e).unique_name = e.unique_name := by
  simp [rewrite_inh]

theorem entity_naming_pass_mem (ents : List EntityRes) :
    ∀ stats e', e' ∈ (entity_naming_pass stats ents).1 →
      ∃ e ∈ ents, ∃ st : Stats,
        e' = create_unique_entity_name
          (add_inheritance_to_entity_result e st).1 := by
  induction ents with
  | nil => intro stats e' h; simp [entity_naming_pass] at h
  | cons e rest ih =>
    intro stats e' h
    simp only [entity_naming_pass, List.mem_cons] at h
    rcases h with h | h
    · exact ⟨e, by simp, stats, h⟩
    · obtain ⟨e₀, he₀, st, hst⟩ := ih _ _ h
      exact ⟨e₀, by simp [he₀], st, hst⟩

/-- C2: `create_unique_entity_name` assigns
`module_name ++ "." ++ entity_name` when the module name is non-empty and
the bare `entity_name` otherwise; the assignment depends only on that pair,
so entities agreeing on it receive identical unique names; and every entity
the per-file pipeline publishes carries exactly the unique name this
function computed once from its (unchanged) module and local names — the
later inheritance-rewriting pass never touches it. -/
theorem C2_unique_name_determinism (e₁ e₂ : EntityRes) (stats : Stats)
    (ents : List EntityRes) (e' : EntityRes)
    (hm : e₁.module_name = e₂.module_name)
    (hn : e₁.entity_name = e₂.entity_name)
    (hmem : e' ∈ (process_file_entities stats ents).1) :
    (create_unique_entity_name e₁).unique_name =
      (if e₁.module_name != "" then e₁.module_name ++ "." ++ e₁.entity_name
       else e₁.entity_name) ∧
    (create_unique_entity_name e₁).unique_name =
      (create_unique_entity_name e₂).unique_name ∧
    ∃ e ∈ ents, e'.module_name = e.module_name ∧
      e'.entity_name = e.entity_name ∧
      e'.unique_name = (create_unique_entity_name e).unique_name := by
  refine ⟨(create_unique_fields e₁).2.2, ?_, ?_⟩
  · rw [(create_unique_fields e₁).2.2, (create_unique_fields e₂).2.2, hm, hn]
  · simp only [process_file_entities, List.mem_map] at hmem
    obtain ⟨e'', hmem'', he'⟩ := hmem
    obtain ⟨e, he, st, hst⟩ := entity_naming_pass_mem ents stats e'' hmem''
    have hf1 := rewrite_inh_fields (entity_naming_pass stats ents).1 e''
    have hf2 := create_unique_fields (add_inheritance_to_entity_result e st).1
    have hf3 := add_inheritance_fields e st
    refine ⟨e, he, ?_, ?_, ?_⟩
    · rw [← he', hf1.2.1, hst, hf2.2.1, hf3.2]
    · rw [← he', hf1.1, hst, hf2.1, hf3.1]
    · rw [← he', hf1.2.2, hst, hf2.2.2, (create_unique_fields e).2.2,
        hf3.1, hf3.2]

/-- Witness for C2 at a concrete entity list. -/
theorem C2_unique_name_determinism_witness :
    (create_unique_entity_name c2E).unique_name =
      (if c2E.module_name != "" then c2E.module_name ++ "." ++ c2E.entity_name
       else c2E.entity_name) ∧
    (create_unique_entity_name c2E).unique_name =
      (create_unique_entity_name c2E).unique_name ∧
    ∃ e ∈ [c2E], c2EOut.module_name = e.module_name ∧
      c2EOut.entity_name = e.entity_name ∧
      c2EOut.unique_name = (create_unique_entity_name e).unique_name :=
  C2_unique_name_determinism c2E c2E ⟨0, 0, []⟩ [c2E] c2EOut rfl rfl
    (by decide)

section
set_option maxHeartbeats 4000000

theorem detect_loop_cons_other (names : List String) (selfName : String)
    (deps : List String) (t : String) (ts : List String)
    (h : ¬(t == ":" || t == "->") = true) (he : ¬(t == "=") = true) :
    detect_loop names selfName deps (t :: ts) =
      detect_loop names selfName deps ts := by
  rw [detect_loop.eq_def]
  simp [h, he]

theorem detect_trace_cons_other (t : String) (ts : List String)
    (h : ¬(t == ":" || t == "->") = true) (he : ¬(t == "=") = true) :
    detect_trace (t :: ts) = detect_trace ts := by
  rw [detect_trace.eq_def]
  simp [h, he]

theorem detect_loop_trace (names : List String) (selfName : String)
    (deps ts : List String) :
    detect_loop names selfName deps ts =
      ((detect_trace ts).1.foldl (maybeAddDep names selfName) deps,
        (detect_trace ts).2) := by
  induction deps, ts using detect_loop.induct names selfName
  case case1 deps => rfl
  case case2 deps t h => simp [detect_loop, detect_trace, h]
  case case3 deps t h t1 ts hg caps hp ih =>
    simp [detect_loop, detect_trace, h, hg, hp, ih]
  case case4 deps t h t1 ts hg hp ih =>
    simp [detect_loop, detect_trace, h, hg, hp, ih]
  case case5 deps t h t1 ts hg ih =>
    simp [detect_loop, detect_trace, h, hg, ih]
  case case6 deps t h he => simp [detect_loop, detect_trace, h, he]
  case case7 deps t h he t1 ts hp ih =>
    simp [detect_loop, detect_trace, h, he, hp, ih]
  case case8 deps t h he t1 caps hp =>
    simp [detect_loop, detect_trace, h, he, hp]
  case case9 deps t h he t1 caps hp nt2 ts tn ih =>
    by_cases hpar : (nt2 == "(") = true
    · simp [tn, hpar] at ih
      simp [detect_loop, detect_trace, h, he, hp, hpar, ih]
    · simp [tn, hpar] at ih
      simp [detect_loop, detect_trace, h, he, hp, hpar, ih]
  case case10 deps t ts h he ih =>
    rw [detect_loop_cons_other names selfName deps t ts h he,
      detect_trace_cons_other t ts h he]
    exact ih

end

theorem maybeAddDep_grows (names : List String) (selfName : String)
    (d : List String) (tn : String) :
    d <+: maybeAddDep names selfName d tn := by
  unfold maybeAddDep
  split
  · exact ⟨[tn], rfl⟩
  · exact List.prefix_rfl

theorem foldl_maybeAddDep_grows (names : List String) (selfName : String)
    (cands : List String) :
    ∀ d, d <+: cands.foldl (maybeAddDep names selfName) d := by
  induction cands with
  | nil => intro d; exact List.prefix_rfl
  | cons c cs ih =>
    intro d
    exact (maybeAddDep_grows names selfName d c).trans (ih _)

theorem mem_foldl_maybeAddDep (names : List String) (selfName : String)
    (cands : List String) :
    ∀ d tn, tn ∈ d ∨ (tn ∈ cands ∧ tn ∈ names ∧ tn ≠ selfName) →
      tn ∈ cands.foldl (maybeAddDep names selfName) d := by
  induction cands with
  | nil =>
    intro d tn h
    rcases h with h | ⟨h, _⟩
    · exact h
    · simp at h
  | cons c cs ih =>
    intro d tn h
    rcases h with h | ⟨hmem, hnm, hne⟩
    · exact ih _ tn (Or.inl ((maybeAddDep_grows names selfName d c).subset h))
    · rcases List.mem_cons.mp hmem with rfl | hmem'
      · refine ih _ tn (Or.inl ?_)
        unfold maybeAddDep
        split
        · simp
        · rename_i hs
          simp only [Bool.and_eq_true, Bool.not_eq_true'] at hs
          have hd : tn ∈ d := by
            by_contra hd
            exact hs (by simp [hnm, hne, hd])
          exact hd
      · exact ih _ tn (Or.inr ⟨hmem', hnm, hne⟩)

theorem foldl_maybeAddDep_noop (names : List String) (selfName : String)
    (cands : List String) :
    ∀ d, (∀ tn ∈ cands, tn ∈ names ∧ tn ≠ selfName → tn ∈ d) →
      cands.foldl (maybeAddDep names selfName) d = d := by
  induction cands with
  | nil => intro d _; rfl
  | cons c cs ih =>
    intro d h
    have hc : maybeAddDep names selfName d c = d := by
      unfold maybeAddDep
      split
      · rename_i hs
        exfalso
        simp at hs
        exact hs.2 (h c (by simp) ⟨hs.1.1, hs.1.2⟩)
      · rfl
    rw [List.foldl_cons, hc]
    exact ih d (fun tn htn hcond => h tn (by simp [htn]) hcond)

theorem foldl_maybeAddDep_nodup (names : List String) (selfName : String)
    (cands : List String) :
    ∀ d, d.Nodup → (cands.foldl (maybeAddDep names selfName) d).Nodup := by
  induction cands with
  | nil => intro d h; exact h
  | cons c cs ih =>
    intro d h
    rw [List.foldl_cons]
    refine ih _ ?_
    unfold maybeAddDep
    split
    · rename_i hs
      have hc : c ∉ d := by
        intro hmem
        revert hs
        simp [hmem]
      simp [List.nodup_append, h, hc]
    · exact h

/-- C5: type-usage inference appends a type name to an entity's import
dependency list only when the name is absent, so running
`_detect_type_usages` a second time on the already-updated Entity Record
leaves the record unchanged, the original list is a front segment of the
result (first-discovery order preserved, append-only), and no duplicate
edge is ever introduced. -/
theorem C5_idempotent_insertion (e : EntityRes) (names : List String)
    (hd : e.scanned_import_dependencies.Nodup) :
    (detect_type_usages (detect_type_usages e names).1 names).1 =
        (detect_type_usages e names).1 ∧
    e.scanned_import_dependencies <+:
        (detect_type_usages e names).1.scanned_import_dependencies ∧
    (detect_type_usages e names).1.scanned_import_dependencies.Nodup := by
  unfold detect_type_usages
  simp only [detect_loop_trace]
  refine ⟨?_, ?_, ?_⟩
  · have hnoop := foldl_maybeAddDep_noop names e.entity_name
      (detect_trace e.scanned_tokens).1
      ((detect_trace e.scanned_tokens).1.foldl
        (maybeAddDep names e.entity_name) e.scanned_import_dependencies)
      (fun tn htn hcond => mem_foldl_maybeAddDep names e.entity_name
        (detect_trace e.scanned_tokens).1 e.scanned_import_dependencies tn
        (Or.inr ⟨htn, hcond.1, hcond.2⟩))
    simp [hnoop]
  · simpa using foldl_maybeAddDep_grows names e.entity_name
      (detect_trace e.scanned_tokens).1 e.scanned_import_dependencies
  · simpa using foldl_maybeAddDep_nodup names e.entity_name
      (detect_trace e.scanned_tokens).1 e.scanned_import_dependencies hd

/-- Witness for C5 at a concrete entity. -/
theorem C5_idempotent_insertion_witness :
    (detect_type_usages
        (detect_type_usages ⟨"Bar", "", "Bar", [":", "Foo", ":", "Foo"],
          [], []⟩ ["Foo"]).1 ["Foo"]).1 =
      (detect_type_usages ⟨"Bar", "", "Bar", [":", "Foo", ":", "Foo"],
        [], []⟩ ["Foo"]).1 ∧
    ([] : List String) <+:
      (detect_type_usages ⟨"Bar", "", "Bar", [":", "Foo", ":", "Foo"],
        [], []⟩ ["Foo"]).1.scanned_import_dependencies ∧
    (detect_type_usages ⟨"Bar", "", "Bar", [":", "Foo", ":", "Foo"],
      [], []⟩ ["Foo"]).1.scanned_import_dependencies.Nodup :=
  C5_idempotent_insertion ⟨"Bar", "", "Bar", [":", "Foo", ":", "Foo"], [], []⟩
    ["Foo"] (by decide)

theorem add_dependencies_filter (objs : List TSCNObject) :
    ∀ deps, add_dependencies_to_result deps objs =
      deps ++ (objs.filter (fun o => o.typeIsExtResource &&
        (o.resource_type == "Script" || o.resource_type == "PackedScene"))).map
        (fun o => o.path) := by
  induction objs with
  | nil => intro deps; simp [add_dependencies_to_result]
  | cons o os ih =>
    intro deps
    have hstep : add_dependencies_to_result deps (o :: os) =
        add_dependencies_to_result
          (if o.typeIsExtResource &&
              (o.resource_type == "Script" || o.resource_type == "PackedScene")
            then deps ++ [o.path] else deps) os := rfl
    rw [hstep]
    by_cases hc : (o.typeIsExtResource &&
        (o.resource_type == "Script" || o.resource_type == "PackedScene")) = true
    · rw [if_pos hc, ih]
      simp [List.filter_cons, hc]
    · rw [if_neg hc, ih]
      simp [List.filter_cons, hc]

section
set_option maxHeartbeats 4000000

theorem extract_objects_ext (srcdir relDir : PyPath)
    (acc : List TSCNObject) (ts : List String) :
    (∀ o ∈ acc, o.typeIsExtResource = true) →
    ∀ objs, extract_objects_scan srcdir relDir acc ts = .ok objs →
      ∀ o ∈ objs, o.typeIsExtResource = true := by
  induction acc, ts using extract_objects_scan.induct srcdir relDir <;>
    intro hacc objs h o ho
  case case1 acc =>
    simp [extract_objects_scan] at h
    exact hacc o (h ▸ ho)
  case case2 acc t ht =>
    rw [extract_objects_scan.eq_def] at h
    simp [ht] at h
  case case3 acc t ht t1 ts hnode ih =>
    rw [extract_objects_scan.eq_def] at h
    simp only [ht, hnode, if_pos] at h
    exact ih hacc objs (by simpa using h) o ho
  case case4 acc t ht t1 ts hnn he hp ih =>
    rw [extract_objects_scan.eq_def] at h
    simp [ht, hnn, he, hp] at h
    exact ih hacc objs h o ho
  case case5 acc t ht t1 ts hnn he cap e hres hp =>
    rw [extract_objects_scan.eq_def] at h
    simp [ht, hnn, he, hp, hres] at h
  case case6 acc t ht t1 ts hnn he cap p hres hp ih =>
    rw [extract_objects_scan.eq_def] at h
    simp [ht, hnn, he, hp, hres] at h
    refine ih ?_ objs h o ho
    intro o' ho'
    rcases List.mem_append.mp ho' with h' | h'
    · exact hacc o' h'
    · simp at h'
      subst h'
      rfl
  case case7 acc t ht t1 ts hnn hne ih =>
    rw [extract_objects_scan.eq_def] at h
    simp [ht, hnn, hne] at h
    exact ih hacc objs h o ho
  case case8 acc t ts ht ih =>
    rw [extract_objects_scan.eq_def] at h
    simp [ht] at h
    exact ih hacc objs h o ho

end

theorem tscn_deps_eq (file_name : String) (srcdir relDir : PyPath)
    (content : String) :
    (tscn_generate_file_result file_name srcdir relDir content).map
        (fun f => f.scanned_import_dependencies) =
      (extract_objects_scan srcdir relDir [] (tokenize content)).map
        (fun objs => (objs.filter (fun o =>
          o.resource_type == "Script" ||
          o.resource_type == "PackedScene")).map (fun o => o.path)) := by
  unfold tscn_generate_file_result
  cases hx : extract_objects_scan srcdir relDir [] (tokenize content) with
  | error e => simp [hx, Except.map]
  | ok objs =>
    have hinv := extract_objects_ext srcdir relDir [] (tokenize content)
      (by simp) objs hx
    have hfc : objs.filter (fun o => o.typeIsExtResource &&
        (o.resource_type == "Script" || o.resource_type == "PackedScene")) =
        objs.filter (fun o =>
          o.resource_type == "Script" || o.resource_type == "PackedScene") :=
      List.filter_congr (fun o ho => by simp [hinv o ho])
    simp [hx, add_dependencies_filter, hfc, Except.map]

/-- C7: a scene File Record's import dependency list holds exactly the
resolved paths of the successfully parsed `[ext_resource ...]` declarations
whose type field is `Script` or `PackedScene`: the dependency attachment
step keeps precisely the `Script`/`PackedScene` objects, every extracted
object carries the `EXT_RESOURCE` marker, the published list equals the
filtered extraction for every input, and on the concrete scenario
`res://player.gd` (a `Script`) is recorded as the canonical
`proj/player.gd` while the `Texture2D` resource contributes nothing. -/
theorem C7_ext_resource_dependencies :
    (∀ (deps : List String) (objs : List TSCNObject),
      add_dependencies_to_result deps objs =
        deps ++ (objs.filter (fun o => o.typeIsExtResource &&
          (o.resource_type == "Script" ||
            o.resource_type == "PackedScene"))).map (fun o => o.path)) ∧
    (∀ (srcdir relDir : PyPath) (ts : List String) (objs : List TSCNObject),
      extract_objects_scan srcdir relDir [] ts = .ok objs →
      ∀ o ∈ objs, o.typeIsExtResource = true) ∧
    (∀ (file_name : String) (srcdir relDir : PyPath) (content : String),
      (tscn_generate_file_result file_name srcdir relDir content).map
          (fun f => f.scanned_import_dependencies) =
        (extract_objects_scan srcdir relDir [] (tokenize content)).map
          (fun objs => (objs.filter (fun o =>
            o.resource_type == "Script" ||
            o.resource_type == "PackedScene")).map (fun o => o.path))) ∧
    (tscn_generate_file_result "scene.tscn" demoRoot demoTopDir c7Content).map
        (fun f => f.scanned_import_dependencies) = .ok ["proj/player.gd"] :=
  ⟨fun deps objs => add_dependencies_filter objs deps,
   fun srcdir relDir ts objs h =>
     extract_objects_ext srcdir relDir [] ts (by simp) objs h,
   tscn_deps_eq, by decide⟩

/-- Witness for C7 at the concrete scene scenario. -/
theorem C7_ext_resource_dependencies_witness :
    (⟨true, "proj/player.gd", "1", "Script"⟩ : TSCNObject).typeIsExtResource
      = true :=
  C7_ext_resource_dependencies.2.1 demoRoot demoTopDir (tokenize c7Content)
    [⟨true, "proj/player.gd", "1", "Script"⟩,
     ⟨true, "proj/icon.png", "2", "Texture2D"⟩] (by decide)
    ⟨true, "proj/player.gd", "1", "Script"⟩ (by decide)

/-- C9: the file-level pass of `GDParser` creates and publishes a pseudo
Entity Record exactly when the identity scan found both a `class_name` and
an `extends` capture; a file with one or neither publishes only its File
Record; the File Record's import list is exactly what the identity scan
appended (the raw extends captures) — the load/preload dependencies are
attached to the entity alone; and publication inserts the optional entity
first, then the file record, and nothing else. -/
theorem C9_entity_published_iff (result file' : FileRes)
    (entOpt : Option EntityRes)
    (h : add_class_name_to_result result = .ok (file', entOpt)) :
    ((∃ e, entOpt = some e) ↔
      ((idScan "" "" result.module_name result.scanned_import_dependencies 0
          result.scanned_tokens).class_name ≠ "" ∧
       (idScan "" "" result.module_name result.scanned_import_dependencies 0
          result.scanned_tokens).extendsName ≠ "")) ∧
    file'.scanned_import_dependencies =
      (idScan "" "" result.module_name result.scanned_import_dependencies 0
        result.scanned_tokens).file_deps ∧
    (∀ e, entOpt = some e →
      parse_loads file' = .ok e.scanned_import_dependencies ∧
      e.scanned_inheritance_dependencies =
        [(idScan "" "" result.module_name result.scanned_import_dependencies 0
            result.scanned_tokens).extendsName] ∧
      e.unique_name =
        (idScan "" "" result.module_name result.scanned_import_dependencies 0
          result.scanned_tokens).class_name) ∧
    (∀ (tbl : List (String × Res)) (file_name : String)
        (srcdir relDir : PyPath) (content : String),
      gd_generate_file_result tbl file_name srcdir relDir content =
        (add_class_name_to_result
            (gd_file0 file_name srcdir relDir content)).map
          (fun pr => upsert pr.1.unique_name (.file pr.1)
            (match pr.2 with
             | some e => upsert e.unique_name (.entity e) tbl
             | none => tbl))) := by
  have hpub : ∀ (tbl : List (String × Res)) (file_name : String)
      (srcdir relDir : PyPath) (content : String),
      gd_generate_file_result tbl file_name srcdir relDir content =
        (add_class_name_to_result
            (gd_file0 file_name srcdir relDir content)).map
          (fun pr => upsert pr.1.unique_name (.file pr.1)
            (match pr.2 with
             | some e => upsert e.unique_name (.entity e) tbl
             | none => tbl)) := by
    intro tbl file_name srcdir relDir content
    unfold gd_generate_file_result
    cases hac : add_class_name_to_result (gd_file0 file_name srcdir relDir
        content) with
    | error e => simp [Except.map]
    | ok pr =>
      obtain ⟨f, eo⟩ := pr
      simp [Except.map]
  unfold add_class_name_to_result at h
  by_cases hb : ((idScan "" "" result.module_name
      result.scanned_import_dependencies 0
      result.scanned_tokens).class_name != "" &&
      (idScan "" "" result.module_name result.scanned_import_dependencies 0
        result.scanned_tokens).extendsName != "") = true
  · rw [if_pos hb] at h
    cases hl : parse_loads { result with
        module_name := (idScan "" "" result.module_name
          result.scanned_import_dependencies 0
          result.scanned_tokens).module_name
        scanned_import_dependencies := (idScan "" "" result.module_name
          result.scanned_import_dependencies 0
          result.scanned_tokens).file_deps } with
    | error e => rw [hl] at h; simp at h
    | ok loads =>
      rw [hl] at h
      simp only [Except.ok.injEq, Prod.mk.injEq] at h
      obtain ⟨hf, he⟩ := h
      subst hf
      refine ⟨?_, rfl, ?_, hpub⟩
      · simp only [Bool.and_eq_true, bne_iff_ne] at hb
        exact ⟨fun _ => hb, fun _ => ⟨_, he.symm⟩⟩
      · intro e hee
        rw [← he] at hee
        simp only [Option.some.injEq] at hee
        subst hee
        exact ⟨hl, rfl, rfl⟩
  · rw [if_neg hb] at h
    simp only [Except.ok.injEq, Prod.mk.injEq] at h
    obtain ⟨hf, he⟩ := h
    subst hf
    refine ⟨?_, rfl, ?_, hpub⟩
    · constructor
      · intro ⟨e, hee⟩
        rw [← he] at hee
        simp at hee
      · intro ⟨h1, h2⟩
        exfalso
        exact hb (by simp [h1, h2])
    · intro e hee
      rw [← he] at hee
      simp at hee

/-- Witness for C9 at a concrete file whose stream declares both facts. -/
theorem C9_entity_published_iff_witness :
    ((∃ e, (some c9Entity : Option EntityRes) = some e) ↔
      ((idScan "" "" c9File.module_name c9File.scanned_import_dependencies 0
          c9File.scanned_tokens).class_name ≠ "" ∧
       (idScan "" "" c9File.module_name c9File.scanned_import_dependencies 0
          c9File.scanned_tokens).extendsName ≠ "")) ∧
    c9FileOut.scanned_import_dependencies =
      (idScan "" "" c9File.module_name c9File.scanned_import_dependencies 0
        c9File.scanned_tokens).file_deps ∧
    (∀ e, (some c9Entity : Option EntityRes) = some e →
      parse_loads c9FileOut = .ok e.scanned_import_dependencies ∧
      e.scanned_inheritance_dependencies =
        [(idScan "" "" c9File.module_name c9File.scanned_import_dependencies 0
            c9File.scanned_tokens).extendsName] ∧
      e.unique_name =
        (idScan "" "" c9File.module_name c9File.scanned_import_dependencies 0
          c9File.scanned_tokens).class_name) ∧
    (∀ (tbl : List (String × Res)) (file_name : String)
        (srcdir relDir : PyPath) (content : String),
      gd_generate_file_result tbl file_name srcdir relDir content =
        (add_class_name_to_result
            (gd_file0 file_name srcdir relDir content)).map
          (fun pr => upsert pr.1.unique_name (.file pr.1)
            (match pr.2 with
             | some e => upsert e.unique_name (.entity e) tbl
             | none => tbl))) :=
  C9_entity_published_iff c9File c9FileOut (some c9Entity) (by decide)

end Emerge














